import Mathlib

/-!
A verification development for the fractal-generation core of the repository
(`fractals.py`): the `FractalConfig` data model, the Mandelbrot and Julia
escape-time loops, the per-pixel viewport mapping, the color mapper
(`get_color`), the Sierpinski point-in-triangle test and the dragon-curve
turn-sequence expansion.

Modelling conventions:
* Python floats are modelled as exact rationals (`ℚ`); Python `complex` as a
  pair `(re, im) : ℚ × ℚ`.
* The float comparison `abs(z) <= r` is encoded without square roots as
  `0 ≤ r ∧ normSq z ≤ r ^ 2`, which is equivalent over the exact reals.
* Python `int` is `ℤ`; Python `int(x)` on a float (truncation toward zero)
  is `pyInt`.
* The `while` loops of the generators are bounded by `max_iterations`, so
  they are embedded as structural recursion on the remaining iteration
  budget (fuel = `max_iterations - count`).
* `numpy` rasters are nested lists of RGB triples; a raster cell is only
  ever written once, with the color of its own pixel.
-/

namespace Fractals

/-- A Python `complex` value, as an exact (re, im) pair of rationals. -/
abbrev Cx : Type := ℚ × ℚ

/-- Complex addition. -/
def cadd (u v : Cx) : Cx := (u.1 + v.1, u.2 + v.2)

/-- Complex multiplication. -/
def cmul (u v : Cx) : Cx := (u.1 * v.1 - u.2 * v.2, u.1 * v.2 + u.2 * v.1)

/-- Complex conjugation. -/
def conj (z : Cx) : Cx := (z.1, -z.2)

/-- Squared magnitude of a complex value. -/
def normSq (z : Cx) : ℚ := z.1 * z.1 + z.2 * z.2

/-- Exact encoding of the Python float comparison `abs(z) <= r`:
over the reals, `sqrt (normSq z) ≤ r` iff `0 ≤ r ∧ normSq z ≤ r ^ 2`. -/
def absLe (z : Cx) (r : ℚ) : Bool := decide (0 ≤ r) && decide (normSq z ≤ r ^ 2)

/-- Python `int(x)` on a float: truncation toward zero. -/
def pyInt (q : ℚ) : ℤ := if 0 ≤ q then ⌊q⌋ else ⌈q⌉

/-- An RGB triple, each channel a Python `int`. -/
abbrev Color : Type := ℤ × ℤ × ℤ

/-- The `FractalConfig` dataclass of `fractals.py` (field defaults in the
source: 800, 600, 100, 1.0, 0.0, 0.0, "rainbow", -0.7+0.27015j, 2.0). -/
structure FractalConfig where
  width : ℤ
  height : ℤ
  max_iterations : ℤ
  zoom : ℚ
  center_x : ℚ
  center_y : ℚ
  color_scheme : String
  julia_c : Cx
  escape_radius : ℚ

/-- `colorsys.hsv_to_rgb` from the Python standard library, on exact
rationals. -/
def hsv_to_rgb (h s v : ℚ) : ℚ × ℚ × ℚ :=
  if s = 0 then (v, v, v)
  else
    let i : ℤ := pyInt (h * 6)
    let f : ℚ := h * 6 - (i : ℚ)
    let p : ℚ := v * (1 - s)
    let q : ℚ := v * (1 - s * f)
    let t : ℚ := v * (1 - s * (1 - f))
    let j : ℤ := i % 6
    if j = 0 then (v, t, p)
    else if j = 1 then (q, v, p)
    else if j = 2 then (p, v, q)
    else if j = 3 then (v, p, q)
    else if j = 4 then (p, q, t)
    else (q, p, t)

/-- `FractalGenerator.get_color`: map an iteration count to an RGB triple.
(The Python division `iterations / max_iterations` raises on
`max_iterations == 0`; that point is never reached from the generators and
is modelled by Lean's total division.) -/
def get_color (cfg : FractalConfig) (iterations max_iterations : ℤ) : Color :=
  if iterations = max_iterations then (0, 0, 0)
  else
    let normalized : ℚ := (iterations : ℚ) / (max_iterations : ℚ)
    let rgb : ℚ × ℚ × ℚ :=
      if cfg.color_scheme = "rainbow" then
        hsv_to_rgb normalized 1 1
      else if cfg.color_scheme = "fire" then
        if normalized < 1/4 then (0, 0, 0)
        else if normalized < 1/2 then (4 * (normalized - 1/4), 0, 0)
        else if normalized < 3/4 then (1, 4 * (normalized - 1/2), 0)
        else (1, 1, 4 * (normalized - 3/4))
      else if cfg.color_scheme = "ocean" then
        (0, normalized * (1/2), normalized)
      else if cfg.color_scheme = "grayscale" then
        (normalized, normalized, normalized)
      else (normalized, normalized, normalized)
    (pyInt (rgb.1 * 255), pyInt (rgb.2.1 * 255), pyInt (rgb.2.2 * 255))

/-- The pixel-to-plane mapping inlined in `MandelbrotGenerator.generate`. -/
def mandelbrotCoord (cfg : FractalConfig) (x y : ℤ) : Cx :=
  let x_min : ℚ := cfg.center_x - 2 / cfg.zoom
  let x_max : ℚ := cfg.center_x + 2 / cfg.zoom
  let y_min : ℚ := cfg.center_y - 1.5 / cfg.zoom
  let y_max : ℚ := cfg.center_y + 1.5 / cfg.zoom
  let real : ℚ := x_min + ((x : ℚ) / (cfg.width : ℚ)) * (x_max - x_min)
  let imag : ℚ := y_min + ((y : ℚ) / (cfg.height : ℚ)) * (y_max - y_min)
  (real, imag)

/-- The `while abs(z) <= escape_radius and iterations < max_iterations`
loop of `MandelbrotGenerator.generate`; `fuel` is the remaining iteration
budget, the result the number of iterations performed. -/
def mandelbrotLoop (cfg : FractalConfig) (c : Cx) : Cx → ℕ → ℕ
  | _, 0 => 0
  | z, fuel + 1 =>
    if absLe z cfg.escape_radius then
      mandelbrotLoop cfg c (cadd (cmul z z) c) fuel + 1
    else 0

/-- Iteration count of a Mandelbrot pixel: `z` starts at `0`, `c` is the
pixel's mapped coordinate. -/
def mandelbrotIterations (cfg : FractalConfig) (x y : ℤ) : ℕ :=
  mandelbrotLoop cfg (mandelbrotCoord cfg x y) (0, 0) cfg.max_iterations.toNat

/-- Color of a Mandelbrot pixel, as stored into the raster. -/
def mandelbrotPixel (cfg : FractalConfig) (x y : ℤ) : Color :=
  get_color cfg (mandelbrotIterations cfg x y : ℤ) cfg.max_iterations

/-- The raster filled by the nested pixel loops of
`MandelbrotGenerator.generate` (`image[y, x] = color`). -/
def mandelbrotRaster (cfg : FractalConfig) : List (List Color) :=
  (List.range cfg.height.toNat).map fun (y : ℕ) =>
    (List.range cfg.width.toNat).map fun (x : ℕ) =>
      mandelbrotPixel cfg (↑x) (↑y)

/-- Exceptions the Python generators can actually raise: `numpy` refuses a
negative array dimension, and `2.0 / zoom` raises on `zoom == 0`. -/
inductive PyError : Type
  | valueError : PyError
  | zeroDivisionError : PyError
deriving DecidableEq

/-- `MandelbrotGenerator.generate`: allocate the raster (negative
dimensions raise), compute the bounds (`zoom == 0` raises), then fill
every pixel. No configuration validation is performed anywhere. -/
def mandelbrotGenerate (cfg : FractalConfig) :
    Except PyError (List (List Color)) :=
  if cfg.width < 0 ∨ cfg.height < 0 then .error .valueError
  else if cfg.zoom = 0 then .error .zeroDivisionError
  else .ok (mandelbrotRaster cfg)

/-- The pixel-to-plane mapping inlined in `JuliaGenerator.generate`
(textually identical to the Mandelbrot one). -/
def juliaCoord (cfg : FractalConfig) (x y : ℤ) : Cx :=
  let x_min : ℚ := cfg.center_x - 2 / cfg.zoom
  let x_max : ℚ := cfg.center_x + 2 / cfg.zoom
  let y_min : ℚ := cfg.center_y - 1.5 / cfg.zoom
  let y_max : ℚ := cfg.center_y + 1.5 / cfg.zoom
  let real : ℚ := x_min + ((x : ℚ) / (cfg.width : ℚ)) * (x_max - x_min)
  let imag : ℚ := y_min + ((y : ℚ) / (cfg.height : ℚ)) * (y_max - y_min)
  (real, imag)

/-- The iteration loop of `JuliaGenerator.generate`: the added constant is
the fixed `config.julia_c`. -/
def juliaLoop (cfg : FractalConfig) : Cx → ℕ → ℕ
  | _, 0 => 0
  | z, fuel + 1 =>
    if absLe z cfg.escape_radius then
      juliaLoop cfg (cadd (cmul z z) cfg.julia_c) fuel + 1
    else 0

/-- Iteration count of a Julia pixel: `z` starts at the pixel's mapped
coordinate. -/
def juliaIterations (cfg : FractalConfig) (x y : ℤ) : ℕ :=
  juliaLoop cfg (juliaCoord cfg x y) cfg.max_iterations.toNat

/-- Color of a Julia pixel, as stored into the raster. -/
def juliaPixel (cfg : FractalConfig) (x y : ℤ) : Color :=
  get_color cfg (juliaIterations cfg x y : ℤ) cfg.max_iterations

/-- `sign` from `SierpinskiGenerator._point_in_triangle`. -/
def sign (p1 p2 p3 : ℤ × ℤ) : ℤ :=
  (p1.1 - p3.1) * (p2.2 - p3.2) - (p2.1 - p3.1) * (p1.2 - p3.2)

/-- `SierpinskiGenerator._point_in_triangle`: inside iff the three signed
areas do not include both a strictly negative and a strictly positive
value. -/
def point_in_triangle (x y : ℤ) (p1 p2 p3 : ℤ × ℤ) : Bool :=
  let d1 : ℤ := sign (x, y) p1 p2
  let d2 : ℤ := sign (x, y) p2 p3
  let d3 : ℤ := sign (x, y) p3 p1
  let has_neg : Bool := decide (d1 < 0) || decide (d2 < 0) || decide (d3 < 0)
  let has_pos : Bool := decide (d1 > 0) || decide (d2 > 0) || decide (d3 > 0)
  !(has_neg && has_pos)

/-- One expansion round of `DragonCurveGenerator._generate_dragon_sequence`:
append `R`, then the reversed sequence with `R` and `L` swapped. -/
def dragonStep (s : List Char) : List Char :=
  s ++ ['R'] ++ s.reverse.map fun turn => if turn = 'R' then 'L' else 'R'

/-- `DragonCurveGenerator._generate_dragon_sequence`: start from `"R"` and
expand for the given number of rounds. -/
def dragonSequence : ℕ → List Char
  | 0 => ['R']
  | n + 1 => dragonStep (dragonSequence n)

/-! ## Definitions transcribed from the specification text
(for the refinement claims; each follows the spec's words, to be compared
with the definitions above, which follow the source). -/

/-- The shared escape-time algorithm as the spec words it: count from 0,
loop while `|z| ≤ escape_radius` and count `< max_iterations`, each step
`z ← z*z + c` and increment; return the count. Fuel is the remaining
budget `max_iterations - count`. -/
def specEscapeCount (r : ℚ) (c : Cx) : Cx → ℕ → ℕ
  | _, 0 => 0
  | z, fuel + 1 =>
    if absLe z r then specEscapeCount r c (cadd (cmul z z) c) fuel + 1
    else 0

/-- The viewport mapping as the spec words it. -/
def specCoord (cfg : FractalConfig) (px py : ℤ) : Cx :=
  let x_min : ℚ := cfg.center_x - 2 / cfg.zoom
  let x_max : ℚ := cfg.center_x + 2 / cfg.zoom
  let y_min : ℚ := cfg.center_y - 1.5 / cfg.zoom
  let y_max : ℚ := cfg.center_y + 1.5 / cfg.zoom
  (x_min + ((px : ℚ) / (cfg.width : ℚ)) * (x_max - x_min),
   y_min + ((py : ℚ) / (cfg.height : ℚ)) * (y_max - y_min))

/-- The spec's signed-area formula
`sign(P,Q,R) = (Px−Rx)(Qy−Ry) − (Qx−Rx)(Py−Ry)`. -/
def specSign (p q r : ℤ × ℤ) : ℤ :=
  (p.1 - r.1) * (q.2 - r.2) - (q.1 - r.1) * (p.2 - r.2)

/-! ## Concrete configurations used by witnesses and counterexamples -/

/-- The Mandelbrot end-to-end scenario configuration of the spec
(`julia_c` keeps its dataclass default `-0.7 + 0.27015j`, unused by
Mandelbrot). -/
def cfg100 : FractalConfig :=
  ⟨100, 75, 50, 1, 0, 0, "grayscale", (-7/10, 5403/20000), 2⟩

/-- A 1×1 configuration with `max_iterations = 1`: every pixel reaches the
cap. -/
def cfg1 : FractalConfig := ⟨1, 1, 1, 1, 0, 0, "rainbow", (-7/10, 5403/20000), 2⟩

/-- A configuration whose `color_scheme` is not one of the four recognized
tags. -/
def cfgPlasma : FractalConfig := ⟨1, 1, 2, 1, 0, 0, "plasma", (-7/10, 5403/20000), 2⟩

/-- A 1×1 configuration with the non-positive `max_iterations = 0`. -/
def cfg0iter : FractalConfig := ⟨1, 1, 0, 1, 0, 0, "rainbow", (-7/10, 5403/20000), 2⟩

/-- A 2×2 configuration centered at the origin, used for the mirror-pixel
counterexample. -/
def cfgMirror : FractalConfig := ⟨2, 2, 5, 1, 0, 0, "grayscale", (-7/10, 5403/20000), 2⟩

/-! ## Helper lemmas -/

/-- One dragon expansion round doubles the length and adds one. -/
lemma dragonStep_length (s : List Char) :
    (dragonStep s).length = 2 * s.length + 1 := by
  simp [dragonStep]
  omega

/-- Length of the dragon turn sequence after `n` rounds. -/
lemma dragonSequence_length (n : ℕ) :
    (dragonSequence n).length = 2 ^ (n + 1) - 1 := by
  induction n with
  | zero => simp [dragonSequence]
  | succ n ih =>
    have h1 : (1 : ℕ) ≤ 2 ^ (n + 1) := Nat.one_le_two_pow
    have h2 : (2 : ℕ) ^ (n + 1 + 1) = 2 * 2 ^ (n + 1) := by ring
    simp only [dragonSequence, dragonStep_length, ih]
    omega

/-- The Mandelbrot loop computes the spec's shared escape-time count. -/
lemma mandelbrotLoop_eq_spec (cfg : FractalConfig) (c : Cx) (fuel : ℕ) :
    ∀ z : Cx,
      mandelbrotLoop cfg c z fuel = specEscapeCount cfg.escape_radius c z fuel := by
  induction fuel with
  | zero => intro z; rfl
  | succ n ih =>
    intro z
    simp only [mandelbrotLoop, specEscapeCount, ih]

/-- The Julia loop computes the spec's shared escape-time count with the
fixed constant `julia_c`. -/
lemma juliaLoop_eq_spec (cfg : FractalConfig) (fuel : ℕ) :
    ∀ z : Cx,
      juliaLoop cfg z fuel = specEscapeCount cfg.escape_radius cfg.julia_c z fuel := by
  induction fuel with
  | zero => intro z; rfl
  | succ n ih =>
    intro z
    simp only [juliaLoop, specEscapeCount, ih]

/-- `point_in_triangle` unfolded to the sign test over the spec's signed
areas (the source's `sign` and the spec's formula coincide). -/
lemma point_in_triangle_eq_sign_test (px py : ℤ) (a b c : ℤ × ℤ) :
    point_in_triangle px py a b c =
      !((decide (specSign (px, py) a b < 0) || decide (specSign (px, py) b c < 0) ||
          decide (specSign (px, py) c a < 0)) &&
        (decide (specSign (px, py) a b > 0) || decide (specSign (px, py) b c > 0) ||
          decide (specSign (px, py) c a > 0))) := rfl

/-- The boolean non-mixed-signs test, as a proposition. -/
lemma sign_test_iff (d1 d2 d3 : ℤ) :
    (!((decide (d1 < 0) || decide (d2 < 0) || decide (d3 < 0)) &&
       (decide (d1 > 0) || decide (d2 > 0) || decide (d3 > 0)))) = true ↔
      ¬ ((d1 < 0 ∨ d2 < 0 ∨ d3 < 0) ∧ (0 < d1 ∨ 0 < d2 ∨ 0 < d3)) := by
  by_cases h1 : d1 < 0 <;> by_cases h2 : d2 < 0 <;> by_cases h3 : d3 < 0 <;>
    by_cases g1 : 0 < d1 <;> by_cases g2 : 0 < d2 <;> by_cases g3 : 0 < d3 <;>
    simp [h1, h2, h3, g1, g2, g3]

/-- Squared magnitudes are nonnegative. -/
lemma normSq_nonneg (z : Cx) : 0 ≤ normSq z := by
  have h1 := mul_self_nonneg z.1
  have h2 := mul_self_nonneg z.2
  simp only [normSq]
  linarith

/-- Conjugation preserves the squared magnitude. -/
lemma normSq_conj (z : Cx) : normSq (conj z) = normSq z := by
  simp only [normSq, conj]
  ring

/-- Conjugation commutes with the iteration step `z*z + c`. -/
lemma step_conj (z c : Cx) :
    cadd (cmul (conj z) (conj z)) (conj c) = conj (cadd (cmul z z) c) := by
  simp only [conj, cadd, cmul, Prod.mk.injEq]
  constructor <;> ring

/-- Squared magnitude of a sum, bounded without square roots. -/
lemma normSq_cadd_le (u v : Cx) :
    normSq (cadd u v) ≤ 2 * normSq u + 2 * normSq v := by
  simp only [normSq, cadd]
  nlinarith [sq_nonneg (u.1 - v.1), sq_nonneg (u.2 - v.2)]

/-- Squared magnitude of a square. -/
lemma normSq_cmul_self (z : Cx) : normSq (cmul z z) = normSq z ^ 2 := by
  simp only [normSq, cmul]
  ring

/-- A loop entered at an escaped point performs no iteration. -/
lemma mandelbrotLoop_of_escaped (cfg : FractalConfig) (c z : Cx)
    (h : absLe z cfg.escape_radius = false) :
    ∀ fuel : ℕ, mandelbrotLoop cfg c z fuel = 0 := by
  intro fuel
  cases fuel with
  | zero => rfl
  | succ n => simp only [mandelbrotLoop, h, Bool.false_eq_true, if_false]

/-- A loop entered inside the escape disc performs one step. -/
lemma mandelbrotLoop_of_inside (cfg : FractalConfig) (c z : Cx) (fuel : ℕ)
    (h : absLe z cfg.escape_radius = true) :
    mandelbrotLoop cfg c z (fuel + 1) =
      mandelbrotLoop cfg c (cadd (cmul z z) c) fuel + 1 := by
  simp only [mandelbrotLoop, h, if_true]

/-- If a bound `B` inside the escape disc is preserved by the iteration
step, the loop never escapes and exhausts its whole budget. -/
lemma mandelbrotLoop_eq_fuel_of_invariant (cfg : FractalConfig) (c : Cx)
    (B : ℚ) (hR : 0 ≤ cfg.escape_radius) (hBR : B ≤ cfg.escape_radius ^ 2)
    (hstep : 2 * B ^ 2 + 2 * normSq c ≤ B) :
    ∀ (fuel : ℕ) (z : Cx), normSq z ≤ B → mandelbrotLoop cfg c z fuel = fuel := by
  intro fuel
  induction fuel with
  | zero => intro z _; rfl
  | succ n ih =>
    intro z hz
    have hcond : absLe z cfg.escape_radius = true := by
      simp only [absLe, Bool.and_eq_true, decide_eq_true_eq]
      exact ⟨hR, le_trans hz hBR⟩
    have hnext : normSq (cadd (cmul z z) c) ≤ B := by
      have h1 := normSq_cadd_le (cmul z z) c
      have h2 : normSq (cmul z z) ≤ B ^ 2 := by
        rw [normSq_cmul_self]
        exact pow_le_pow_left₀ (normSq_nonneg z) hz 2
      linarith
    simp only [mandelbrotLoop, hcond, if_true, ih _ hnext]

/-- In-range cells of the Mandelbrot raster hold their pixel's color. -/
lemma mandelbrotRaster_get (cfg : FractalConfig) (x y : ℕ)
    (hx : x < cfg.width.toNat) (hy : y < cfg.height.toNat) :
    ((mandelbrotRaster cfg)[y]!)[x]! = mandelbrotPixel cfg (x : ℤ) (y : ℤ) := by
  have hy2 : y < (mandelbrotRaster cfg).length := by
    simp only [mandelbrotRaster, List.length_map, List.length_range]
    exact hy
  rw [getElem!_pos (mandelbrotRaster cfg) y hy2]
  have hrow : (mandelbrotRaster cfg)[y] =
      (List.range cfg.width.toNat).map
        (fun i : ℕ => mandelbrotPixel cfg (i : ℤ) (y : ℤ)) := by
    simp only [mandelbrotRaster, List.getElem_map, List.getElem_range]
  rw [hrow]
  have hx2 : x < ((List.range cfg.width.toNat).map
      (fun i : ℕ => mandelbrotPixel cfg (i : ℤ) (y : ℤ))).length := by
    simp only [List.length_map, List.length_range]
    exact hx
  rw [getElem!_pos ((List.range cfg.width.toNat).map
    (fun i : ℕ => mandelbrotPixel cfg (i : ℤ) (y : ℤ))) x hx2]
  simp only [List.getElem_map, List.getElem_range]

/-- Pixel (0,0) of `cfg100` maps to the viewport corner `-2 - 1.5i`. -/
lemma cfg100_corner_coord : mandelbrotCoord cfg100 0 0 = (-2, -3/2) := by
  norm_num [mandelbrotCoord, cfg100]

/-- The corner point escapes after a single iteration. -/
lemma cfg100_corner_iterations : mandelbrotIterations cfg100 0 0 = 1 := by
  have h0 : absLe ((0 : ℚ), (0 : ℚ)) cfg100.escape_radius = true := by
    norm_num [absLe, normSq, cfg100]
  have hz1 : cadd (cmul ((0 : ℚ), (0 : ℚ)) (0, 0)) (-2, -3/2) =
      ((-2 : ℚ), (-3/2 : ℚ)) := by
    norm_num [cadd, cmul]
  have h1 : absLe ((-2 : ℚ), (-3/2 : ℚ)) cfg100.escape_radius = false := by
    norm_num [absLe, normSq, cfg100]
  have hfuel : cfg100.max_iterations.toNat = 49 + 1 := rfl
  simp only [mandelbrotIterations, cfg100_corner_coord, hfuel]
  rw [mandelbrotLoop_of_inside cfg100 _ _ _ h0, hz1,
    mandelbrotLoop_of_escaped cfg100 _ _ h1]

/-- The corner pixel of the end-to-end scenario is the dark gray
`int(255 * 1/50) = 5` on each channel. -/
lemma cfg100_corner_pixel : mandelbrotPixel cfg100 0 0 = (5, 5, 5) := by
  have hr : ("grayscale" : String) ≠ "rainbow" := by decide
  have hf : ("grayscale" : String) ≠ "fire" := by decide
  have ho : ("grayscale" : String) ≠ "ocean" := by decide
  simp only [mandelbrotPixel, cfg100_corner_iterations]
  norm_num [get_color, cfg100, pyInt, hr, hf, ho]

/-- Pixel (50,37) of `cfg100` maps to `0 - 0.02i`. -/
lemma cfg100_center_coord : mandelbrotCoord cfg100 50 37 = (0, -1/50) := by
  norm_num [mandelbrotCoord, cfg100]

/-- The center point's orbit stays inside the escape disc, so the count
reaches the cap. -/
lemma cfg100_center_iterations : mandelbrotIterations cfg100 50 37 = 50 := by
  have h := mandelbrotLoop_eq_fuel_of_invariant cfg100 (0, -1/50) (1/100)
    (by norm_num [cfg100]) (by norm_num [cfg100]) (by norm_num [normSq])
    50 (0, 0) (by norm_num [normSq])
  simp only [mandelbrotIterations, cfg100_center_coord]
  simpa [cfg100] using h

/-- The center pixel of the end-to-end scenario is black. -/
lemma cfg100_center_pixel : mandelbrotPixel cfg100 50 37 = (0, 0, 0) := by
  simp only [mandelbrotPixel, cfg100_center_iterations]
  norm_num [get_color, cfg100]

/-- Pixel (1,0) of `cfgMirror` (coordinate `-1.5i`) escapes after two
iterations. -/
lemma cfgMirror_iterations_10 : mandelbrotIterations cfgMirror 1 0 = 2 := by
  have hc : mandelbrotCoord cfgMirror 1 0 = (0, -3/2) := by
    norm_num [mandelbrotCoord, cfgMirror]
  have h0 : absLe ((0 : ℚ), (0 : ℚ)) cfgMirror.escape_radius = true := by
    norm_num [absLe, normSq, cfgMirror]
  have hz1 : cadd (cmul ((0 : ℚ), (0 : ℚ)) (0, 0)) (0, -3/2) =
      ((0 : ℚ), (-3/2 : ℚ)) := by
    norm_num [cadd, cmul]
  have h1 : absLe ((0 : ℚ), (-3/2 : ℚ)) cfgMirror.escape_radius = true := by
    norm_num [absLe, normSq, cfgMirror]
  have hz2 : cadd (cmul ((0 : ℚ), (-3/2 : ℚ)) (0, -3/2)) (0, -3/2) =
      ((-9/4 : ℚ), (-3/2 : ℚ)) := by
    norm_num [cadd, cmul]
  have h2 : absLe ((-9/4 : ℚ), (-3/2 : ℚ)) cfgMirror.escape_radius = false := by
    norm_num [absLe, normSq, cfgMirror]
  have hfuel : cfgMirror.max_iterations.toNat = 3 + 1 + 1 := rfl
  simp only [mandelbrotIterations, hc, hfuel]
  rw [mandelbrotLoop_of_inside cfgMirror _ _ _ h0, hz1,
    mandelbrotLoop_of_inside cfgMirror _ _ _ h1, hz2,
    mandelbrotLoop_of_escaped cfgMirror _ _ h2]

/-- Pixel (1,1) of `cfgMirror` (coordinate `0`) never escapes and reaches
the cap of 5. -/
lemma cfgMirror_iterations_11 : mandelbrotIterations cfgMirror 1 1 = 5 := by
  have hc : mandelbrotCoord cfgMirror 1 1 = (0, 0) := by
    norm_num [mandelbrotCoord, cfgMirror]
  have h := mandelbrotLoop_eq_fuel_of_invariant cfgMirror (0, 0) 0
    (by norm_num [cfgMirror]) (by norm_num [cfgMirror]) (by norm_num [normSq])
    5 (0, 0) (by norm_num [normSq])
  simp only [mandelbrotIterations, hc]
  simpa [cfgMirror] using h

/-- Pixel (0,0) of `cfg1` maps to the lower-left corner of the viewport. -/
lemma cfg1_coord : mandelbrotCoord cfg1 0 0 = (-2, -3/2) := by
  norm_num [mandelbrotCoord, cfg1]

/-- With `max_iterations = 1`, pixel (0,0) of `cfg1` reaches the cap. -/
lemma cfg1_iterations : mandelbrotIterations cfg1 0 0 = 1 := by
  simp only [mandelbrotIterations, cfg1_coord]
  norm_num [cfg1, mandelbrotLoop, absLe, normSq]

/-! ## Claims -/

/-- Claim C8: for every `n ≥ 0`, the dragon-curve turn sequence produced by
`n` expansion rounds has length `2 ^ (n + 1) - 1`. -/
theorem dragon_sequence_length_pow_succ (n : ℕ) :
    (dragonSequence n).length = 2 ^ (n + 1) - 1 :=
  dragonSequence_length n

/-- Claim C9 (counterexample): after 1 round the sequence has length 3,
not `2 ^ 1 - 1 = 1` as claimed. -/
theorem dragon_sequence_length_one_round_ne :
    (dragonSequence 1).length ≠ 2 ^ 1 - 1 := by decide

/-- Claim C9 (amended): the sequence produced by `n` rounds has length
`2 ^ (n + 1) - 1`, i.e. its length plus one is `2 ^ (n + 1)`. -/
theorem dragon_sequence_length_succ_pow (n : ℕ) :
    (dragonSequence n).length + 1 = 2 ^ (n + 1) := by
  have h1 : (1 : ℕ) ≤ 2 ^ (n + 1) := Nat.one_le_two_pow
  have h2 := dragonSequence_length n
  omega

/-- Claim C1: the Mandelbrot iteration count starts `z` at 0 with `c` the
pixel's mapped coordinate, the Julia count starts `z` at the mapped
coordinate with `c` the fixed `config.julia_c`; both run the spec's shared
count-while-bounded loop. -/
theorem escape_time_counts_refine_shared_algorithm
    (cfg : FractalConfig) (x y : ℤ) :
    mandelbrotIterations cfg x y =
      specEscapeCount cfg.escape_radius (mandelbrotCoord cfg x y) (0, 0)
        cfg.max_iterations.toNat ∧
    juliaIterations cfg x y =
      specEscapeCount cfg.escape_radius cfg.julia_c (juliaCoord cfg x y)
        cfg.max_iterations.toNat :=
  ⟨mandelbrotLoop_eq_spec cfg (mandelbrotCoord cfg x y) cfg.max_iterations.toNat (0, 0),
   juliaLoop_eq_spec cfg cfg.max_iterations.toNat (juliaCoord cfg x y)⟩

/-- Claim C2: for a config with positive zoom and an in-range pixel, both
generators map the pixel by the spec's viewport formula. -/
theorem pixel_mapping_matches_spec_formula
    (cfg : FractalConfig) (px py : ℤ) (_hz : 0 < cfg.zoom)
    (_hpx0 : 0 ≤ px) (_hpx : px < cfg.width)
    (_hpy0 : 0 ≤ py) (_hpy : py < cfg.height) :
    mandelbrotCoord cfg px py = specCoord cfg px py ∧
    juliaCoord cfg px py = specCoord cfg px py :=
  ⟨rfl, rfl⟩

/-- Witness for C2 at a concrete config and pixel. -/
theorem pixel_mapping_matches_spec_formula_witness :
    mandelbrotCoord cfg100 3 4 = specCoord cfg100 3 4 ∧
    juliaCoord cfg100 3 4 = specCoord cfg100 3 4 :=
  pixel_mapping_matches_spec_formula cfg100 3 4 (by decide) (by decide)
    (by decide) (by decide) (by decide)

/-- Claim C3: `get_color` returns `(0,0,0)` whenever the count equals
`max_iterations`, whatever the scheme; hence any Mandelbrot or Julia pixel
whose count reaches the cap renders black. -/
theorem capped_iteration_count_renders_black (cfg : FractalConfig) :
    get_color cfg cfg.max_iterations cfg.max_iterations = (0, 0, 0) ∧
    ∀ x y : ℤ,
      ((mandelbrotIterations cfg x y : ℤ) = cfg.max_iterations →
        mandelbrotPixel cfg x y = (0, 0, 0)) ∧
      ((juliaIterations cfg x y : ℤ) = cfg.max_iterations →
        juliaPixel cfg x y = (0, 0, 0)) := by
  refine ⟨by simp [get_color], fun x y => ⟨fun h => ?_, fun h => ?_⟩⟩
  · simp [mandelbrotPixel, get_color, h]
  · simp [juliaPixel, get_color, h]

/-- Witness for C3: with `max_iterations = 1` the pixel (0,0) of a 1×1
Mandelbrot raster reaches the cap and is black. -/
theorem capped_iteration_count_renders_black_witness :
    get_color cfg1 cfg1.max_iterations cfg1.max_iterations = (0, 0, 0) ∧
    mandelbrotPixel cfg1 0 0 = (0, 0, 0) :=
  ⟨(capped_iteration_count_renders_black cfg1).1,
   ((capped_iteration_count_renders_black cfg1).2 0 0).1
     (by rw [cfg1_iterations]; rfl)⟩

/-- Claim C7: the Sierpinski point-in-triangle test is the spec's
non-mixed-signs test on `d1 = sign(P,A,B)`, `d2 = sign(P,B,C)`,
`d3 = sign(P,C,A)`; boundary points (some `d` zero, the rest of a single
sign) are classified inside. -/
theorem point_in_triangle_sign_classification
    (px py : ℤ) (a b c : ℤ × ℤ) :
    (point_in_triangle px py a b c = true ↔
      ¬ ((specSign (px, py) a b < 0 ∨ specSign (px, py) b c < 0 ∨
            specSign (px, py) c a < 0) ∧
         (0 < specSign (px, py) a b ∨ 0 < specSign (px, py) b c ∨
            0 < specSign (px, py) c a))) ∧
    ((specSign (px, py) a b = 0 ∨ specSign (px, py) b c = 0 ∨
        specSign (px, py) c a = 0) →
      ((0 ≤ specSign (px, py) a b ∧ 0 ≤ specSign (px, py) b c ∧
          0 ≤ specSign (px, py) c a) ∨
       (specSign (px, py) a b ≤ 0 ∧ specSign (px, py) b c ≤ 0 ∧
          specSign (px, py) c a ≤ 0)) →
      point_in_triangle px py a b c = true) := by
  rw [point_in_triangle_eq_sign_test]
  refine ⟨sign_test_iff _ _ _, fun _ hsame => ?_⟩
  refine (sign_test_iff _ _ _).mpr ?_
  rintro ⟨hneg, hpos⟩
  rcases hsame with ⟨h1, h2, h3⟩ | ⟨h1, h2, h3⟩
  · rcases hneg with h | h | h <;> linarith
  · rcases hpos with h | h | h <;> linarith

/-- Witness for C7: the point (0,0) lies on edge AB of the triangle
(0,0)-(1,0)-(0,1) (`d1 = 0`, the others nonnegative) and is inside. -/
theorem point_in_triangle_sign_classification_witness :
    point_in_triangle 0 0 (0, 0) (1, 0) (0, 1) = true :=
  (point_in_triangle_sign_classification 0 0 (0, 0) (1, 0) (0, 1)).2
    (by decide) (by decide)

/-- Claim C10: an unrecognized `color_scheme` silently falls back to the
grayscale triple for any count strictly below the cap. -/
theorem unknown_scheme_falls_back_to_grayscale
    (cfg : FractalConfig) (iterations max_iterations : ℤ)
    (hs : cfg.color_scheme ∉ (["rainbow", "fire", "ocean", "grayscale"] : List String))
    (hlt : iterations < max_iterations) :
    get_color cfg iterations max_iterations =
      (pyInt ((iterations : ℚ) / (max_iterations : ℚ) * 255),
       pyInt ((iterations : ℚ) / (max_iterations : ℚ) * 255),
       pyInt ((iterations : ℚ) / (max_iterations : ℚ) * 255)) := by
  simp only [List.mem_cons, List.mem_singleton, not_or] at hs
  obtain ⟨h1, h2, h3, h4, -⟩ := hs
  simp [get_color, ne_of_lt hlt, h1, h2, h3, h4]

/-- Witness for C10: scheme "plasma", count 1 of 2, gives the grayscale
value `int(0.5 * 255) = 127` on each channel. -/
theorem unknown_scheme_falls_back_to_grayscale_witness :
    get_color cfgPlasma 1 2 =
      (pyInt (((1 : ℤ) : ℚ) / ((2 : ℤ) : ℚ) * 255),
       pyInt (((1 : ℤ) : ℚ) / ((2 : ℤ) : ℚ) * 255),
       pyInt (((1 : ℤ) : ℚ) / ((2 : ℤ) : ℚ) * 255)) :=
  unknown_scheme_falls_back_to_grayscale cfgPlasma 1 2 (by decide) (by decide)

/-- Claim C4 (counterexample): `max_iterations = 0` is non-positive, yet
`generate()` raises nothing and returns a complete raster (here a single
black pixel). -/
theorem nonpositive_config_generates_without_error :
    cfg0iter.max_iterations ≤ 0 ∧
    mandelbrotGenerate cfg0iter = .ok [[(0, 0, 0)]] := by
  refine ⟨by decide, ?_⟩
  have hpix : mandelbrotPixel cfg0iter 0 0 = (0, 0, 0) := by
    simp only [mandelbrotPixel, mandelbrotIterations]
    norm_num [cfg0iter, mandelbrotLoop, get_color]
  have hz : ¬ (cfg0iter.zoom = 0) := by norm_num [cfg0iter]
  have hw : ¬ (cfg0iter.width < 0 ∨ cfg0iter.height < 0) := by decide
  have h1 : cfg0iter.height.toNat = 1 := rfl
  have h2 : cfg0iter.width.toNat = 1 := rfl
  have hr1 : List.range 1 = [0] := rfl
  rw [mandelbrotGenerate, if_neg hw, if_neg hz]
  simp only [mandelbrotRaster, h1, h2, hr1, List.map_cons,
    List.map_nil, Nat.cast_zero, hpix]

/-- Claim C4 (amended): no configuration validation exists. For any config
with nonnegative dimensions and nonzero zoom — in particular with
non-positive `max_iterations` or `escape_radius` — `generate()` returns a
complete `height × width` raster and no error; only a negative dimension
(array allocation) or `zoom = 0` (division) can raise, neither being a
fail-fast validation of the config. -/
theorem generate_skips_validation_and_returns_full_raster
    (cfg : FractalConfig) (hw : 0 ≤ cfg.width) (hh : 0 ≤ cfg.height)
    (hz : cfg.zoom ≠ 0) :
    mandelbrotGenerate cfg = .ok (mandelbrotRaster cfg) ∧
    (mandelbrotRaster cfg).length = cfg.height.toNat ∧
    ∀ row ∈ mandelbrotRaster cfg, row.length = cfg.width.toNat := by
  refine ⟨?_, ?_, ?_⟩
  · have h1 : ¬ (cfg.width < 0 ∨ cfg.height < 0) := by omega
    simp [mandelbrotGenerate, h1, hz]
  · simp only [mandelbrotRaster, List.length_map, List.length_range]
  · intro row hrow
    simp only [mandelbrotRaster, List.mem_map] at hrow
    obtain ⟨i, -, rfl⟩ := hrow
    simp only [List.length_map, List.length_range]

/-- Witness for the amended C4, at the config with `max_iterations = 0`. -/
theorem generate_skips_validation_witness :
    mandelbrotGenerate cfg0iter = .ok (mandelbrotRaster cfg0iter) ∧
    (mandelbrotRaster cfg0iter).length = cfg0iter.height.toNat ∧
    ∀ row ∈ mandelbrotRaster cfg0iter, row.length = cfg0iter.width.toNat :=
  generate_skips_validation_and_returns_full_raster cfg0iter (by decide)
    (by decide) (by norm_num [cfg0iter])

/-- Claim C5 (counterexample): in the end-to-end scenario the top-left
pixel (0,0) is the dark gray (5,5,5), not a light gray close to
(255,255,255). -/
theorem scenario_corner_pixel_not_near_white :
    ((mandelbrotRaster cfg100)[0]!)[0]! = (5, 5, 5) ∧
    ¬ (192 ≤ (((mandelbrotRaster cfg100)[0]!)[0]!).1 ∧
       192 ≤ (((mandelbrotRaster cfg100)[0]!)[0]!).2.1 ∧
       192 ≤ (((mandelbrotRaster cfg100)[0]!)[0]!).2.2) := by
  have h : ((mandelbrotRaster cfg100)[0]!)[0]! = ((5 : ℤ), (5 : ℤ), (5 : ℤ)) := by
    rw [mandelbrotRaster_get cfg100 0 0 (by norm_num [cfg100]) (by norm_num [cfg100])]
    simpa using cfg100_corner_pixel
  refine ⟨h, ?_⟩
  rw [h]
  decide

/-- Claim C5 (amended): the scenario raster has the black center pixel
(50,37) the spec expects, but its fast-escaping corner pixel (0,0) is the
dark gray `(5,5,5)` — fast escape means a low normalized count, hence a
color near black, not near white. -/
theorem scenario_center_black_corner_dark_gray :
    mandelbrotGenerate cfg100 = .ok (mandelbrotRaster cfg100) ∧
    ((mandelbrotRaster cfg100)[37]!)[50]! = (0, 0, 0) ∧
    ((mandelbrotRaster cfg100)[0]!)[0]! = (5, 5, 5) := by
  refine ⟨?_, ?_, ?_⟩
  · norm_num [mandelbrotGenerate, cfg100]
  · rw [mandelbrotRaster_get cfg100 50 37 (by norm_num [cfg100]) (by norm_num [cfg100])]
    simpa using cfg100_center_pixel
  · rw [mandelbrotRaster_get cfg100 0 0 (by norm_num [cfg100]) (by norm_num [cfg100])]
    simpa using cfg100_corner_pixel

/-- Claim C6 (counterexample): on a 2×2 grid centered at the origin, pixel
(1,0) maps to `-1.5i` but its mirror (1, height−1−0) = (1,1) maps to `0`,
not to the conjugate `1.5i`, and the iteration counts differ (2 vs 5). -/
theorem mirror_pixel_not_conjugate_and_counts_differ :
    mandelbrotCoord cfgMirror 1 0 = (0, -3/2) ∧
    mandelbrotCoord cfgMirror 1 (2 - 1 - 0) = (0, 0) ∧
    ((0 : ℚ), (0 : ℚ)) ≠ ((0 : ℚ), -(-3/2 : ℚ)) ∧
    mandelbrotIterations cfgMirror 1 0 = 2 ∧
    mandelbrotIterations cfgMirror 1 (2 - 1 - 0) = 5 ∧
    (2 : ℕ) ≠ 5 := by
  refine ⟨by norm_num [mandelbrotCoord, cfgMirror],
    by norm_num [mandelbrotCoord, cfgMirror], by simp [Prod.ext_iff],
    cfgMirror_iterations_10, ?_, by norm_num⟩
  have h : (2 - 1 - 0 : ℤ) = 1 := by norm_num
  rw [h]
  exact cfgMirror_iterations_11

/-- Claim C6 (amended): the mirror pixel's real part is unchanged, but its
imaginary part is `2*center_y − imag − 3/(zoom*height)` — off the claimed
conjugate by the grid offset `3/(zoom*height)`; the Mandelbrot loop itself
is conjugation-invariant, so exactly conjugate coordinates do share their
iteration count. -/
theorem mirror_formula_and_conjugation_invariance
    (cfg : FractalConfig) (px py : ℤ) (hh : cfg.height ≠ 0) :
    ((mandelbrotCoord cfg px (cfg.height - 1 - py)).1 =
        (mandelbrotCoord cfg px py).1 ∧
     (mandelbrotCoord cfg px (cfg.height - 1 - py)).2 =
        2 * cfg.center_y - (mandelbrotCoord cfg px py).2 -
          3 / (cfg.zoom * (cfg.height : ℚ))) ∧
    ∀ (c z : Cx) (fuel : ℕ),
      mandelbrotLoop cfg (conj c) (conj z) fuel = mandelbrotLoop cfg c z fuel := by
  constructor
  · refine ⟨rfl, ?_⟩
    have hhq : ((cfg.height : ℤ) : ℚ) ≠ 0 := Int.cast_ne_zero.mpr hh
    have h15 : (1.5 : ℚ) = 3 / 2 := by norm_num
    simp only [mandelbrotCoord, h15]
    push_cast
    by_cases hz0 : cfg.zoom = 0
    · simp [hz0]
      ring
    · field_simp
      ring
  · intro c z fuel
    induction fuel generalizing z with
    | zero => rfl
    | succ n ih =>
      have habs : absLe (conj z) cfg.escape_radius = absLe z cfg.escape_radius := by
        simp [absLe, normSq_conj]
      simp only [mandelbrotLoop, habs, step_conj, ih]

/-- Witness for the amended C6 at the 2×2 configuration. -/
theorem mirror_formula_and_conjugation_invariance_witness :
    (mandelbrotCoord cfgMirror 1 (cfgMirror.height - 1 - 0)).2 =
      2 * cfgMirror.center_y - (mandelbrotCoord cfgMirror 1 0).2 -
        3 / (cfgMirror.zoom * (cfgMirror.height : ℚ)) :=
  ((mirror_formula_and_conjugation_invariance cfgMirror 1 0 (by decide)).1).2

end Fractals
